import Mathlib

/-!
Verification of the MongoDB workflow coordinator
(`src/services/transactionService.js`) and the generic repository layer
(`src/services/crudOperations.js`).

The store is modelled as three in-memory collections keyed by identifiers
(abstracted as `Nat`; string `ObjectId` validation is modelled separately in
the `MongoCrud` namespace).  JavaScript numbers are modelled as rationals.
Each workflow runs inside `withTransaction` (crudOperations.js 479-494):
the body either returns a new committed state (`Except.ok`) or throws
(`Except.error`), in which case the session aborts and the pre-state is what
survives; `commit` / `commitP` below give the committed state of a run.
-/

namespace MongoTx

/-- Error kinds thrown by the workflows, one constructor per `throw new Error`
message in transactionService.js. -/
inductive TxError where
  | notFound (what : String)
  | outOfStock (productId : Nat)
  | insufficientFunds
  | invalidAmount
  | invalidPrice (productId : Nat)
  | alreadyCancelled
  | notCancellable
deriving Repr, DecidableEq

/-- Ledger entry embedded in `User.transactions`
(transactionService.js 154-164 and 174-184). -/
structure LedgerEntry where
  id : Nat
  typ : String
  amount : ℚ
  counterparty : Nat
  description : String
  status : String
deriving Repr, DecidableEq

/-- Stock audit entry pushed to `Product.stockHistory`
(transactionService.js 74-81 and 236-243). -/
structure StockEvent where
  orderId : Nat
  change : ℚ
  reason : String
deriving Repr, DecidableEq

/-- Price audit entry pushed to `Product.priceHistory`
(transactionService.js 325-335). -/
structure PriceEvent where
  oldPrice : ℚ
  newPrice : ℚ
  change : ℚ
  changePercent : Option ℚ
  reason : String
  updatedBy : String
deriving Repr, DecidableEq

/-- User document (fields touched by the workflows). -/
structure User where
  balance : ℚ
  orderHistory : List Nat
  transactions : List LedgerEntry
  totalOrders : Int
  totalSpent : ℚ
  cancelledOrders : Int
deriving Repr, DecidableEq

/-- Product document (fields touched by the workflows). -/
structure Product where
  name : String
  price : ℚ
  stock : ℚ
  stockHistory : List StockEvent
  priceHistory : List PriceEvent
deriving Repr, DecidableEq

/-- An order item object as held in the caller-supplied `items` array of
`processOrder`; `price` and `total` are overwritten by the workflow
(transactionService.js 56-57). -/
structure ItemObj where
  productId : Nat
  quantity : ℚ
  price : ℚ
  total : ℚ
deriving Repr, DecidableEq

/-- Order document (fields touched by the workflows).  `items` is the
serialized snapshot persisted by `createOne`. -/
structure Order where
  userId : Nat
  items : List ItemObj
  total : ℚ
  status : String
  cancellationReason : Option String
deriving Repr, DecidableEq

/-- The document store: the three collections the workflows touch. -/
structure State where
  users : Nat → Option User
  products : Nat → Option Product
  orders : Nat → Option Order

/-- `CRUDOperations.updateById` on the users collection
(crudOperations.js 230-258): `findOneAndUpdate` applies the update when the
document exists and is a silent no-op (returning null) when it does not. -/
def updateUserById (st : State) (id : Nat) (f : User → User) : State :=
  match st.users id with
  | none => st
  | some u => { st with users := fun i => if i = id then some (f u) else st.users i }

/-- `CRUDOperations.updateById` on the products collection. -/
def updateProductById (st : State) (id : Nat) (f : Product → Product) : State :=
  match st.products id with
  | none => st
  | some p => { st with products := fun i => if i = id then some (f p) else st.products i }

/-- `CRUDOperations.updateById` on the orders collection. -/
def updateOrderById (st : State) (id : Nat) (f : Order → Order) : State :=
  match st.orders id with
  | none => st
  | some o => { st with orders := fun i => if i = id then some (f o) else st.orders i }

/-- Committed state of a workflow run returning only a state:
on `ok` the session commits the new state, on `error` it aborts and the
pre-state survives (crudOperations.js 479-494). -/
def commit (st : State) : Except TxError State → State
  | .ok st' => st'
  | .error _ => st

/-- Committed state of a workflow run returning a state plus a payload. -/
def commitP {α : Type} (st : State) : Except TxError (State × α) → State
  | .ok (st', _) => st'
  | .error _ => st

/-- Debit ledger entry pushed onto the source user
(transactionService.js 154-164); the amount is recorded negated. -/
def debitEntry (txId toUserId : Nat) (amount : ℚ) (description : String) : LedgerEntry :=
  { id := txId, typ := "debit", amount := -amount, counterparty := toUserId,
    description := description, status := "completed" }

/-- Credit ledger entry pushed onto the destination user
(transactionService.js 174-184). -/
def creditEntry (txId fromUserId : Nat) (amount : ℚ) (description : String) : LedgerEntry :=
  { id := txId, typ := "credit", amount := amount, counterparty := fromUserId,
    description := description, status := "completed" }

/-- `TransactionService.transferFunds` (transactionService.js 120-205).
`txId` stands for the `Date.now()`-derived transaction id; the result payload
object is omitted, only the state effect is modelled.  The two `updateById`
calls each `$inc` the balance and `$push` one ledger entry; the credit is
applied to the store state left by the debit. -/
def transferFunds (st : State) (txId fromUserId toUserId : Nat) (amount : ℚ)
    (description : String) : Except TxError State :=
  if amount ≤ 0 then .error .invalidAmount
  else
    match st.users fromUserId with
    | none => .error (.notFound "Source user")
    | some fromUser =>
      match st.users toUserId with
      | none => .error (.notFound "Destination user")
      | some _ =>
        if fromUser.balance < amount then .error .insufficientFunds
        else
          let st1 := updateUserById st fromUserId fun u =>
            { u with balance := u.balance - amount,
                     transactions := u.transactions ++ [debitEntry txId toUserId amount description] }
          let st2 := updateUserById st1 toUserId fun u =>
            { u with balance := u.balance + amount,
                     transactions := u.transactions ++ [creditEntry txId fromUserId amount description] }
          .ok st2

/-- Price of the product with identifier `pid` as currently stored
(0 when absent; used only in contexts where the product was found). -/
def priceOf (st : State) (pid : Nat) : ℚ :=
  match st.products pid with
  | none => 0
  | some p => p.price

/-- The item object after the validation loop of `processOrder` overwrote it
(transactionService.js 56-57): `item.price = product.price` and
`item.total = product.price * item.quantity`. -/
def itemAfter (st : State) (it : ItemObj) : ItemObj :=
  { it with price := priceOf st it.productId,
            total := priceOf st it.productId * it.quantity }

/-- A planned stock decrement accumulated by the validation loop of
`processOrder` (transactionService.js 49-53; the `currentStock` field is
recorded but never read, so it is omitted). -/
structure InvUpdate where
  productId : Nat
  quantityToReduce : ℚ
deriving Repr, DecidableEq

/-- Step 2 of `processOrder` (transactionService.js 34-58): for each item
reference, load the product, throw when absent or when
`product.stock < item.quantity`, otherwise accumulate the line total and the
planned decrement and overwrite `item.price` / `item.total` in place on the
caller's item objects (modelled as a heap of item objects indexed by the
references in the caller's array). -/
def validateItems (st : State) :
    List Nat → (Nat → ItemObj) → ℚ → List InvUpdate →
    Except TxError ((Nat → ItemObj) × ℚ × List InvUpdate)
  | [], heap, totalAmount, inventoryUpdates => .ok (heap, totalAmount, inventoryUpdates)
  | r :: rest, heap, totalAmount, inventoryUpdates =>
    let item := heap r
    match st.products item.productId with
    | none => .error (.notFound "Product")
    | some product =>
      if product.stock < item.quantity then .error (.outOfStock item.productId)
      else
        let itemTotal := product.price * item.quantity
        validateItems st rest
          (fun j => if j = r then { item with price := product.price, total := itemTotal } else heap j)
          (totalAmount + itemTotal)
          (inventoryUpdates ++ [{ productId := item.productId, quantityToReduce := item.quantity }])

/-- Step 4 of `processOrder` (transactionService.js 69-85): apply every
planned decrement with `$inc stock` and `$push stockHistory` tagged
`order_placed`. -/
def applyInvUpdates (orderId : Nat) : State → List InvUpdate → State
  | st, [] => st
  | st, u :: rest =>
    applyInvUpdates orderId
      (updateProductById st u.productId fun p =>
        { p with stock := p.stock - u.quantityToReduce,
                 stockHistory := p.stockHistory ++
                   [{ orderId := orderId, change := -u.quantityToReduce, reason := "order_placed" }] })
      rest

/-- Result payload of `processOrder`: the returned order object holds the
same item array the caller passed in (`items` on line 63 is the mutated
caller array, by reference), here the list of references. -/
structure ProcessOrderResult where
  orderId : Nat
  itemRefs : List Nat
  total : ℚ

/-- `TransactionService.processOrder` (transactionService.js 21-110).
`newOrderId` stands for the store-assigned `_id` of the inserted order;
`heap`/`itemRefs` model the caller's mutable item objects and the array of
references to them.  Step 3 persists the order with a snapshot of the
mutated item objects; step 5 pushes the order id onto the buyer's
`orderHistory` and increments the aggregates. -/
def processOrder (st : State) (newOrderId userId : Nat) (heap : Nat → ItemObj)
    (itemRefs : List Nat) :
    Except TxError (State × (Nat → ItemObj) × ProcessOrderResult) :=
  match st.users userId with
  | none => .error (.notFound "User")
  | some _ =>
    match validateItems st itemRefs heap 0 [] with
    | .error e => .error e
    | .ok (heap', totalAmount, inventoryUpdates) =>
      let newOrder : Order :=
        { userId := userId, items := itemRefs.map heap', total := totalAmount,
          status := "pending", cancellationReason := none }
      let st1 : State := { st with orders := fun i => if i = newOrderId then some newOrder else st.orders i }
      let st2 := applyInvUpdates newOrderId st1 inventoryUpdates
      let st3 := updateUserById st2 userId fun u =>
        { u with orderHistory := u.orderHistory ++ [newOrderId],
                 totalOrders := u.totalOrders + 1,
                 totalSpent := u.totalSpent + totalAmount }
      .ok (st3, heap', { orderId := newOrderId, itemRefs := itemRefs, total := totalAmount })

/-- Inventory restoration loop of `cancelOrder`
(transactionService.js 231-247): for each order item, `$inc stock` by the
item quantity and `$push stockHistory` tagged `order_cancelled`. -/
def restoreItems (orderId : Nat) : State → List ItemObj → State
  | st, [] => st
  | st, item :: rest =>
    restoreItems orderId
      (updateProductById st item.productId fun p =>
        { p with stock := p.stock + item.quantity,
                 stockHistory := p.stockHistory ++
                   [{ orderId := orderId, change := item.quantity, reason := "order_cancelled" }] })
      rest

/-- `TransactionService.cancelOrder` (transactionService.js 213-291).
After restoring inventory it sets the order status to `cancelled` and
updates the buyer with `$pull orderHistory` (which removes every matching
element) and `$inc` of the three aggregates; the result payload is
omitted, only the state effect is modelled. -/
def cancelOrder (st : State) (orderId : Nat) (reason : String) : Except TxError State :=
  match st.orders orderId with
  | none => .error (.notFound "Order")
  | some order =>
    if order.status = "cancelled" then .error .alreadyCancelled
    else if order.status = "shipped" ∨ order.status = "delivered" then .error .notCancellable
    else
      let st1 := restoreItems orderId st order.items
      let st2 := updateOrderById st1 orderId fun o =>
        { o with status := "cancelled", cancellationReason := some reason }
      let st3 := updateUserById st2 order.userId fun u =>
        { u with orderHistory := u.orderHistory.filter (fun x => x != orderId),
                 totalOrders := u.totalOrders - 1,
                 totalSpent := u.totalSpent - order.total,
                 cancelledOrders := u.cancelledOrders + 1 }
      .ok st3

/-- A price update request, one element of the `priceUpdates` argument of
`bulkUpdatePrices`. -/
structure PriceUpdate where
  productId : Nat
  newPrice : ℚ
  reason : String
deriving Repr, DecidableEq

/-- JavaScript number division as used on transactionService.js 330: a zero
denominator yields a non-finite value (Infinity or NaN), modelled as
`none`. -/
def jsDiv (a b : ℚ) : Option ℚ := if b = 0 then none else some (a / b)

/-- The `priceHistory` record pushed for one update
(transactionService.js 325-335); `changePercent` is
`((newPrice - oldPrice) / oldPrice) * 100` with unguarded division. -/
def priceEventOf (u : PriceUpdate) (oldPrice : ℚ) : PriceEvent :=
  { oldPrice := oldPrice, newPrice := u.newPrice, change := u.newPrice - oldPrice,
    changePercent := (jsDiv (u.newPrice - oldPrice) oldPrice).map (fun x => x * 100),
    reason := u.reason, updatedBy := "system" }

/-- The `updateById` performed for one entry of `bulkUpdatePrices`
(transactionService.js 321-338): `$set` the new price and `$push` the
audit record. -/
def applyPriceUpdate (st : State) (u : PriceUpdate) (oldPrice : ℚ) : State :=
  updateProductById st u.productId fun p =>
    { p with price := u.newPrice,
             priceHistory := p.priceHistory ++ [priceEventOf u oldPrice] }

/-- One element of the `results` array returned by `bulkUpdatePrices`
(transactionService.js 340-347). -/
structure PriceChange where
  productId : Nat
  productName : String
  oldPrice : ℚ
  newPrice : ℚ
  change : ℚ
  changePercent : Option ℚ
deriving Repr, DecidableEq

/-- Loop body of `bulkUpdatePrices` (transactionService.js 304-348): for
each entry, throw when `newPrice ≤ 0`, load the product (throw when
absent), then apply the price update and record the result entry. -/
def bulkUpdatePricesLoop : State → List PriceChange → List PriceUpdate →
    Except TxError (State × List PriceChange)
  | st, results, [] => .ok (st, results)
  | st, results, u :: rest =>
    if u.newPrice ≤ 0 then .error (.invalidPrice u.productId)
    else
      match st.products u.productId with
      | none => .error (.notFound "Product")
      | some product =>
        bulkUpdatePricesLoop (applyPriceUpdate st u product.price)
          (results ++ [{ productId := u.productId, productName := product.name,
                         oldPrice := product.price, newPrice := u.newPrice,
                         change := u.newPrice - product.price,
                         changePercent := (jsDiv (u.newPrice - product.price) product.price).map
                           (fun x => x * 100) }])
          rest

/-- `TransactionService.bulkUpdatePrices` (transactionService.js 298-364). -/
def bulkUpdatePrices (st : State) (priceUpdates : List PriceUpdate) :
    Except TxError (State × List PriceChange) :=
  bulkUpdatePricesLoop st [] priceUpdates

/-- Decidable rendering of `st` holding a product for every item: used as a
hypothesis shape in the theorems below. -/
def productExists (st : State) (pid : Nat) : Bool :=
  (st.products pid).isSome

/-- The stock check of transactionService.js line 40 passes for this item:
its product exists and `item.quantity ≤ product.stock`. -/
def stockAvailable (st : State) (it : ItemObj) : Bool :=
  match st.products it.productId with
  | none => false
  | some p => decide (it.quantity ≤ p.stock)

/-- The stock check of transactionService.js line 40 fails for this item:
its product exists and `product.stock < item.quantity`. -/
def outOfStockAt (st : State) (it : ItemObj) : Bool :=
  match st.products it.productId with
  | none => false
  | some p => decide (p.stock < it.quantity)

/-- Sum of line totals `product.price * item.quantity` over the requested
items, read off the pre-state. -/
def orderTotal (st : State) (heap : Nat → ItemObj) (refs : List Nat) : ℚ :=
  (refs.map (fun r => priceOf st (heap r).productId * (heap r).quantity)).sum

/-- The planned stock decrements the validation loop accumulates, read off
the original heap. -/
def invsOf (heap : Nat → ItemObj) (refs : List Nat) : List InvUpdate :=
  refs.map (fun r => { productId := (heap r).productId, quantityToReduce := (heap r).quantity })

/-- Total quantity a decrement list takes from product `pid`. -/
def sumQty (invs : List InvUpdate) (pid : Nat) : ℚ :=
  ((invs.filter (fun u => u.productId == pid)).map (fun u => u.quantityToReduce)).sum

/-- Total quantity an order request takes from product `pid`. -/
def requestedQty (heap : Nat → ItemObj) (refs : List Nat) (pid : Nat) : ℚ :=
  sumQty (invsOf heap refs) pid

/-! ### Session-threading traces

For the session-discipline claim, each workflow is mirrored by a trace of
the Repository calls it performs, in source order, each tagged with the
collection and with whether the call received the session in its options
argument.  The write calls in transactionService.js all pass `{ session }`;
the `findById` reads pass no options. -/

/-- One Repository call made inside a workflow, tagged with whether the
workflow passed its session to it. -/
inductive RepoCall where
  | findById (coll : String) (sessionPassed : Bool)
  | createOne (coll : String) (sessionPassed : Bool)
  | updateById (coll : String) (sessionPassed : Bool)
deriving Repr, DecidableEq

/-- Whether a Repository call is a mutation. -/
def RepoCall.isWrite : RepoCall → Bool
  | .findById _ _ => false
  | .createOne _ _ => true
  | .updateById _ _ => true

/-- Whether the workflow passed its session to the call. -/
def RepoCall.sessionPassed : RepoCall → Bool
  | .findById _ s => s
  | .createOne _ s => s
  | .updateById _ s => s

/-- Repository calls of `transferFunds` (transactionService.js 120-205):
two unsessioned `findById` reads, then two sessioned `updateById` writes. -/
def transferFundsTrace (st : State) (fromUserId toUserId : Nat) (amount : ℚ) : List RepoCall :=
  if amount ≤ 0 then []
  else
    .findById "users" false ::
      match st.users fromUserId with
      | none => []
      | some fromUser =>
        .findById "users" false ::
          match st.users toUserId with
          | none => []
          | some _ =>
            if fromUser.balance < amount then []
            else [.updateById "users" true, .updateById "users" true]

/-- Repository calls of the validation loop of `processOrder`
(transactionService.js 34-58): one unsessioned `findById` per item until a
validation failure throws. -/
def validateItemsTrace (st : State) : List Nat → (Nat → ItemObj) → List RepoCall
  | [], _ => []
  | r :: rest, heap =>
    let item := heap r
    .findById "products" false ::
      match st.products item.productId with
      | none => []
      | some product =>
        if product.stock < item.quantity then []
        else
          validateItemsTrace st rest
            (fun j => if j = r then { item with price := product.price,
                                                total := product.price * item.quantity }
                      else heap j)

/-- Repository calls of `processOrder` (transactionService.js 21-110). -/
def processOrderTrace (st : State) (userId : Nat) (heap : Nat → ItemObj)
    (itemRefs : List Nat) : List RepoCall :=
  .findById "users" false ::
    match st.users userId with
    | none => []
    | some _ =>
      validateItemsTrace st itemRefs heap ++
        match validateItems st itemRefs heap 0 [] with
        | .error _ => []
        | .ok (_, _, inventoryUpdates) =>
          .createOne "orders" true ::
            (inventoryUpdates.map (fun _ => .updateById "products" true) ++
              [.updateById "users" true])

/-- Repository calls of `cancelOrder` (transactionService.js 213-291). -/
def cancelOrderTrace (st : State) (orderId : Nat) : List RepoCall :=
  .findById "orders" false ::
    match st.orders orderId with
    | none => []
    | some order =>
      if order.status = "cancelled" then []
      else if order.status = "shipped" ∨ order.status = "delivered" then []
      else
        order.items.map (fun _ => .updateById "products" true) ++
          [.updateById "orders" true, .updateById "users" true]

/-- Repository calls of `bulkUpdatePrices` (transactionService.js 298-364). -/
def bulkUpdatePricesTrace : State → List PriceUpdate → List RepoCall
  | _, [] => []
  | st, u :: rest =>
    if u.newPrice ≤ 0 then []
    else
      .findById "products" false ::
        match st.products u.productId with
        | none => []
        | some product =>
          .updateById "products" true ::
            bulkUpdatePricesTrace (applyPriceUpdate st u product.price) rest

/-- Repository calls of `createUserWithSetup`
(transactionService.js 372-429): all three potential calls are writes and
all receive the session. -/
def createUserWithSetupTrace (createProfile : Bool) (initialBalance : ℚ) : List RepoCall :=
  .createOne "users" true ::
    ((if createProfile then [.createOne "profiles" true] else []) ++
      (if initialBalance > 0 then [.updateById "users" true] else []))

/-- The session is passed to a call exactly when the call is a write. -/
def RepoCall.sessionMatchesWrite (c : RepoCall) : Bool :=
  c.sessionPassed == c.isWrite

end MongoTx

namespace MongoCrud

/-!  The repository layer's by-id identity validation
(`src/services/crudOperations.js`), modelled over a generic collection of
documents keyed by identifier strings. -/

/-- Repository-level error kinds. -/
inductive RepoError where
  | invalidObjectId
deriving Repr, DecidableEq

/-- A hexadecimal digit as it appears in a canonical ObjectId string
(lowercase). -/
def isHexLowerChar (c : Char) : Bool :=
  c.isDigit || ('a' ≤ c && c ≤ 'f')

/-- `CRUDOperations.isValidObjectId` (crudOperations.js 25-27):
`ObjectId.isValid(id) && String(new ObjectId(id)) === id`.  The driver's
canonical string form is 24 lowercase hexadecimal characters, so the
round-trip check accepts exactly those strings. -/
def isValidObjectId (s : String) : Bool :=
  s.length == 24 && s.toList.all isHexLowerChar

/-- `CRUDOperations.toObjectId` (crudOperations.js 34-38): validate and
normalize the identifier, throwing `Invalid ObjectId` when malformed.
The normal form of an already-canonical string is itself. -/
def toObjectId (s : String) : Except RepoError String :=
  if isValidObjectId s then .ok s else .error .invalidObjectId

/-- A collection of documents keyed by canonical identifier strings. -/
def Col (δ : Type) := String → Option δ

/-- `CRUDOperations.findById` (crudOperations.js 159-170): convert the id
first, then query the collection. -/
def findById {δ : Type} (c : Col δ) (id : String) : Except RepoError (Option δ) :=
  match toObjectId id with
  | .error e => .error e
  | .ok objectId => .ok (c objectId)

/-- `CRUDOperations.updateById` (crudOperations.js 230-258): convert the id
first, then `findOneAndUpdate`, returning the updated collection and the
post-update document (or none when absent). -/
def updateById {δ : Type} (c : Col δ) (id : String) (f : δ → δ) :
    Except RepoError (Col δ × Option δ) :=
  match toObjectId id with
  | .error e => .error e
  | .ok objectId =>
    match c objectId with
    | none => .ok (c, none)
    | some d => .ok (fun j => if j = objectId then some (f d) else c j, some (f d))

/-- `CRUDOperations.deleteById` (crudOperations.js 373-384): convert the id
first, then `findOneAndDelete`, returning the updated collection and the
removed document (or none when absent). -/
def deleteById {δ : Type} (c : Col δ) (id : String) :
    Except RepoError (Col δ × Option δ) :=
  match toObjectId id with
  | .error e => .error e
  | .ok objectId =>
    match c objectId with
    | none => .ok (c, none)
    | some d => .ok (fun j => if j = objectId then none else c j, some d)

end MongoCrud

namespace MongoTx

/-! ### Concrete stores used by the counterexamples and witnesses -/

/-- A user with a given balance and otherwise fresh fields. -/
def mkUser (balance : ℚ) : User :=
  { balance := balance, orderHistory := [], transactions := [],
    totalOrders := 0, totalSpent := 0, cancelledOrders := 0 }

/-- A product with a given price and stock and otherwise fresh fields. -/
def mkProduct (price stock : ℚ) : Product :=
  { name := "Widget", price := price, stock := stock,
    stockHistory := [], priceHistory := [] }

/-- Store with one user (id 1, balance 100). -/
def c1State : State :=
  { users := fun i => if i = 1 then some (mkUser 100) else none,
    products := fun _ => none, orders := fun _ => none }

/-- Store with two users (id 1 balance 100, id 2 balance 5). -/
def c1wState : State :=
  { users := fun i => if i = 1 then some (mkUser 100) else if i = 2 then some (mkUser 5) else none,
    products := fun _ => none, orders := fun _ => none }

/-- Store with one user (id 3) and one product (id 4, price 10, stock 5). -/
def c2State : State :=
  { users := fun i => if i = 3 then some (mkUser 0) else none,
    products := fun i => if i = 4 then some (mkProduct 10 5) else none,
    orders := fun _ => none }

/-- An item request for product 4: quantity `q`, stale price fields. -/
def c2Item (q : ℚ) : ItemObj :=
  { productId := 4, quantity := q, price := 999, total := 0 }

/-- Store with two users (id 1 balance 100, id 2 balance 0). -/
def c3State : State :=
  { users := fun i => if i = 1 then some (mkUser 100) else if i = 2 then some (mkUser 0) else none,
    products := fun _ => none, orders := fun _ => none }

/-- Store with a buyer (id 5) whose `orderHistory` is `[9]` and a pending
order 9 of total 20 belonging to that buyer. -/
def c4State : State :=
  { users := fun i => if i = 5 then
      some { balance := 0, orderHistory := [9], transactions := [],
             totalOrders := 1, totalSpent := 20, cancelledOrders := 0 }
      else none,
    products := fun _ => none,
    orders := fun i => if i = 9 then
      some { userId := 5, items := [], total := 20, status := "pending", cancellationReason := none }
      else none }

/-- Store with two products (ids 1 and 2, both price 10, stock 5). -/
def c5State : State :=
  { users := fun _ => none,
    products := fun i => if i = 1 ∨ i = 2 then some (mkProduct 10 5) else none,
    orders := fun _ => none }

/-- Store with a buyer (id 5) and orders 8 (`cancelled`), 9 (`shipped`) and
10 (`pending`, total 0, buyer 5). -/
def c6State : State :=
  { users := fun i => if i = 5 then some (mkUser 0) else none,
    products := fun _ => none,
    orders := fun i =>
      if i = 8 then some { userId := 5, items := [], total := 0, status := "cancelled",
                           cancellationReason := none }
      else if i = 9 then some { userId := 5, items := [], total := 0, status := "shipped",
                                cancellationReason := none }
      else if i = 10 then some { userId := 5, items := [], total := 0, status := "pending",
                                 cancellationReason := none }
      else none }

/-- The committed state after cancelling the pending order 10 of
`c6State`. -/
def c6After : State := commit c6State (cancelOrder c6State 10 "first")

/-- Empty store. -/
def c7State : State :=
  { users := fun _ => none, products := fun _ => none, orders := fun _ => none }

/-- Store with product 1 priced 10 and product 2 priced 0 (both stock 5). -/
def c8State : State :=
  { users := fun _ => none,
    products := fun i => if i = 1 then some (mkProduct 10 5)
      else if i = 2 then some (mkProduct 0 5) else none,
    orders := fun _ => none }

/-- Store with one user (id 3) and one product (id 4, price 10, stock 5). -/
def c10State : State :=
  { users := fun i => if i = 3 then some (mkUser 0) else none,
    products := fun i => if i = 4 then some (mkProduct 10 5) else none,
    orders := fun _ => none }

end MongoTx

namespace MongoCrud

/-- An empty collection of naturals. -/
def emptyCol : Col Nat := fun _ => none

end MongoCrud

namespace MongoTx

/-! ### Collection-preservation lemmas for the per-collection updates -/

lemma updateUserById_products (st : State) (id : Nat) (f : User → User) :
    (updateUserById st id f).products = st.products := by
  unfold updateUserById; cases st.users id <;> rfl

lemma updateUserById_orders (st : State) (id : Nat) (f : User → User) :
    (updateUserById st id f).orders = st.orders := by
  unfold updateUserById; cases st.users id <;> rfl

lemma updateProductById_users (st : State) (id : Nat) (f : Product → Product) :
    (updateProductById st id f).users = st.users := by
  unfold updateProductById; cases st.products id <;> rfl

lemma updateProductById_orders (st : State) (id : Nat) (f : Product → Product) :
    (updateProductById st id f).orders = st.orders := by
  unfold updateProductById; cases st.products id <;> rfl

lemma updateOrderById_users (st : State) (id : Nat) (f : Order → Order) :
    (updateOrderById st id f).users = st.users := by
  unfold updateOrderById; cases st.orders id <;> rfl

lemma updateOrderById_products (st : State) (id : Nat) (f : Order → Order) :
    (updateOrderById st id f).products = st.products := by
  unfold updateOrderById; cases st.orders id <;> rfl

lemma updateProductById_isSome (st : State) (id : Nat) (f : Product → Product) (pid : Nat) :
    ((updateProductById st id f).products pid).isSome = (st.products pid).isSome := by
  unfold updateProductById
  cases h : st.products id with
  | none => rfl
  | some p =>
    by_cases hpid : pid = id
    · subst hpid; simp [h]
    · simp [hpid]

lemma updateProductById_other (st : State) (id : Nat) (f : Product → Product) (pid : Nat)
    (h : pid ≠ id) : (updateProductById st id f).products pid = st.products pid := by
  unfold updateProductById
  cases st.products id with
  | none => rfl
  | some p => simp [h]

lemma updateProductById_same (st : State) (id : Nat) (f : Product → Product) (p : Product)
    (h : st.products id = some p) : (updateProductById st id f).products id = some (f p) := by
  unfold updateProductById; rw [h]; simp

lemma updateUserById_users_same (st : State) (id : Nat) (f : User → User) (u : User)
    (h : st.users id = some u) : (updateUserById st id f).users id = some (f u) := by
  unfold updateUserById; rw [h]; simp

lemma updateUserById_users_other (st : State) (id : Nat) (f : User → User) (i : Nat)
    (h : i ≠ id) : (updateUserById st id f).users i = st.users i := by
  unfold updateUserById
  cases st.users id with
  | none => rfl
  | some u => simp [h]

lemma restoreItems_users (oid : Nat) :
    ∀ (items : List ItemObj) (st : State), (restoreItems oid st items).users = st.users := by
  intro items
  induction items with
  | nil => intro st; rfl
  | cons it rest ih =>
    intro st
    unfold restoreItems
    rw [ih, updateProductById_users]

lemma restoreItems_orders (oid : Nat) :
    ∀ (items : List ItemObj) (st : State), (restoreItems oid st items).orders = st.orders := by
  intro items
  induction items with
  | nil => intro st; rfl
  | cons it rest ih =>
    intro st
    unfold restoreItems
    rw [ih, updateProductById_orders]

/-- A committed `cancelOrder` leaves the order present with status
`cancelled`. -/
lemma cancelOrder_ok_status (st : State) (oid : Nat) (r : String) (st₁ : State)
    (h : cancelOrder st oid r = .ok st₁) :
    ∃ o', st₁.orders oid = some o' ∧ o'.status = "cancelled" := by
  unfold cancelOrder at h
  cases ho : st.orders oid with
  | none => rw [ho] at h; exact absurd h (by simp)
  | some o =>
    rw [ho] at h
    dsimp only at h
    by_cases h1 : o.status = "cancelled"
    · rw [if_pos h1] at h; exact absurd h (by simp)
    · rw [if_neg h1] at h
      by_cases h2 : o.status = "shipped" ∨ o.status = "delivered"
      · rw [if_pos h2] at h; exact absurd h (by simp)
      · rw [if_neg h2] at h
        simp only [Except.ok.injEq] at h
        subst h
        rw [updateUserById_orders]
        have horders : (restoreItems oid st o.items).orders oid = some o := by
          rw [restoreItems_orders]; exact ho
        unfold updateOrderById
        rw [horders]
        exact ⟨{ userId := o.userId, items := o.items, total := o.total,
                 status := "cancelled", cancellationReason := some r },
               by simp, rfl⟩

/-- C6: `cancelOrder` fails with `NotFound` when the order is absent, with
`AlreadyCancelled` when its status is already `cancelled`, and with
`NotCancellable` (committing no mutation) when its status is `shipped` or
`delivered` (transactionService.js 217-228); and a second `cancelOrder` on
an already-cancelled order fails with `AlreadyCancelled` and leaves the
committed state exactly as it was after the first cancellation. -/
theorem c6_cancelOrder_guards :
    (∀ (st : State) (oid : Nat) (r : String), st.orders oid = none →
      cancelOrder st oid r = .error (.notFound "Order")) ∧
    (∀ (st : State) (oid : Nat) (r : String) (o : Order), st.orders oid = some o →
      o.status = "cancelled" → cancelOrder st oid r = .error .alreadyCancelled) ∧
    (∀ (st : State) (oid : Nat) (r : String) (o : Order), st.orders oid = some o →
      o.status = "shipped" ∨ o.status = "delivered" →
      cancelOrder st oid r = .error .notCancellable ∧
        commit st (cancelOrder st oid r) = st) ∧
    (∀ (st st₁ : State) (oid : Nat) (r r₂ : String), cancelOrder st oid r = .ok st₁ →
      cancelOrder st₁ oid r₂ = .error .alreadyCancelled ∧
        commit st₁ (cancelOrder st₁ oid r₂) = st₁) := by
  have guard2 : ∀ (st : State) (oid : Nat) (r : String) (o : Order), st.orders oid = some o →
      o.status = "cancelled" → cancelOrder st oid r = .error .alreadyCancelled := by
    intro st oid r o ho hs
    unfold cancelOrder
    rw [ho]
    dsimp only
    rw [if_pos hs]
  refine ⟨?_, guard2, ?_, ?_⟩
  · intro st oid r ho
    unfold cancelOrder
    rw [ho]
  · intro st oid r o ho hs
    have h1 : ¬ o.status = "cancelled" := by
      rcases hs with h | h <;> rw [h] <;> decide
    have heq : cancelOrder st oid r = .error .notCancellable := by
      unfold cancelOrder
      rw [ho]
      dsimp only
      rw [if_neg h1, if_pos hs]
    exact ⟨heq, by rw [heq]; rfl⟩
  · intro st st₁ oid r r₂ h
    obtain ⟨o', ho', hs'⟩ := cancelOrder_ok_status st oid r st₁ h
    have heq := guard2 st₁ oid r₂ o' ho' hs'
    exact ⟨heq, by rw [heq]; rfl⟩

/-- C6 witness: on the concrete store `c6State`, order 99 is absent, order 8
is already cancelled, order 9 is shipped, and cancelling the pending order
10 twice hits `AlreadyCancelled` the second time on the committed state of
the first call. -/
theorem c6_witness :
    (c6State.orders 99 = none ∧ cancelOrder c6State 99 "a" = .error (.notFound "Order")) ∧
    (cancelOrder c6State 8 "a" = .error .alreadyCancelled) ∧
    (cancelOrder c6State 9 "a" = .error .notCancellable ∧
      commit c6State (cancelOrder c6State 9 "a") = c6State) ∧
    (cancelOrder c6After 10 "second" = .error .alreadyCancelled ∧
      commit c6After (cancelOrder c6After 10 "second") = c6After) := by
  have h99 : c6State.orders 99 = none := rfl
  have h8 : c6State.orders 8 = some ⟨5, [], 0, "cancelled", none⟩ := rfl
  have h9 : c6State.orders 9 = some ⟨5, [], 0, "shipped", none⟩ := rfl
  have h10 : cancelOrder c6State 10 "first" = .ok c6After := rfl
  exact ⟨⟨h99, c6_cancelOrder_guards.1 c6State 99 "a" h99⟩,
    c6_cancelOrder_guards.2.1 c6State 8 "a" _ h8 rfl,
    c6_cancelOrder_guards.2.2.1 c6State 9 "a" _ h9 (Or.inl rfl),
    c6_cancelOrder_guards.2.2.2 c6State c6After 10 "first" "second" h10⟩

/-- C7: `transferFunds` with `amount ≤ 0` fails with `InvalidAmount`
(transactionService.js 124-126) and the committed state is unchanged, so
both users' balances and ledgers are untouched. -/
theorem c7_transferFunds_invalidAmount (st : State) (txId a b : Nat) (amount : ℚ)
    (d : String) (h : amount ≤ 0) :
    transferFunds st txId a b amount d = .error .invalidAmount ∧
      commit st (transferFunds st txId a b amount d) = st := by
  have h1 : transferFunds st txId a b amount d = .error .invalidAmount := by
    unfold transferFunds; rw [if_pos h]
  exact ⟨h1, by rw [h1]; rfl⟩

/-- C7 witness: a zero-amount transfer on the empty store. -/
theorem c7_witness :
    (0 : ℚ) ≤ 0 ∧
      (transferFunds c7State 1 1 2 0 "" = .error .invalidAmount ∧
        commit c7State (transferFunds c7State 1 1 2 0 "") = c7State) :=
  ⟨le_refl 0, c7_transferFunds_invalidAmount c7State 1 1 2 0 "" (le_refl 0)⟩

/-- C1 counterexample: `transferFunds(a, a, 50)` with user 1 holding
balance 100 satisfies the claim's hypotheses (both named users exist, the
source balance is at least the positive amount), yet the committed balance
of user 1 is 100, not 100 - 50 — the debit and credit land on the same
document — and two ledger entries (not one) are appended to that user's
transactions. -/
theorem c1_counterexample :
    (c1State.users 1).isSome = true ∧ (0 : ℚ) < 50 ∧
      (c1State.users 1).map User.balance = some 100 ∧ (50 : ℚ) ≤ 100 ∧
      ((commit c1State (transferFunds c1State 7 1 1 50 "")).users 1).map User.balance =
        some (100 - 50 + 50) ∧
      (100 - 50 + 50 : ℚ) = 100 ∧ (100 : ℚ) ≠ 100 - 50 ∧
      ((commit c1State (transferFunds c1State 7 1 1 50 "")).users 1).map
          (fun u => u.transactions.length) = some 2 :=
  ⟨by decide, by decide, by decide, by decide, by rfl, by norm_num, by norm_num, by rfl⟩

/-- C1 (amended with distinct accounts): for `transferFunds(a, b, amount)`
with `a ≠ b`, both users present, `0 < amount ≤ balance(a)`, the committed
state debits `a` by exactly `amount`, credits `b` by exactly `amount`,
appends exactly one ledger entry to each user's transactions — amounts
`-amount` and `+amount`, summing to 0 and sharing the correlation
identifier `txId` — and touches no other user. -/
theorem c1_transferFunds_conservation (st : State) (txId a b : Nat) (amount : ℚ)
    (d : String) (ua ub : User) (hab : a ≠ b) (ha : st.users a = some ua)
    (hb : st.users b = some ub) (hpos : 0 < amount) (hbal : amount ≤ ua.balance) :
    ∃ st', transferFunds st txId a b amount d = .ok st' ∧
      st'.users a = some { ua with balance := ua.balance - amount,
                                   transactions := ua.transactions ++ [debitEntry txId b amount d] } ∧
      st'.users b = some { ub with balance := ub.balance + amount,
                                   transactions := ub.transactions ++ [creditEntry txId a amount d] } ∧
      (debitEntry txId b amount d).amount = -amount ∧
      (creditEntry txId a amount d).amount = amount ∧
      (debitEntry txId b amount d).amount + (creditEntry txId a amount d).amount = 0 ∧
      (debitEntry txId b amount d).id = (creditEntry txId a amount d).id ∧
      (∀ i, i ≠ a → i ≠ b → st'.users i = st.users i) := by
  have hnle : ¬ amount ≤ 0 := not_le.mpr hpos
  have hnlt : ¬ ua.balance < amount := not_lt.mpr hbal
  set fA : User → User := fun u =>
    { u with balance := u.balance - amount,
             transactions := u.transactions ++ [debitEntry txId b amount d] } with hfA
  set fB : User → User := fun u =>
    { u with balance := u.balance + amount,
             transactions := u.transactions ++ [creditEntry txId a amount d] } with hfB
  have hok : transferFunds st txId a b amount d =
      .ok (updateUserById (updateUserById st a fA) b fB) := by
    unfold transferFunds
    rw [if_neg hnle, ha]
    dsimp only
    rw [hb]
    dsimp only
    rw [if_neg hnlt]
  have hab' : b ≠ a := fun h => hab h.symm
  have h1b : (updateUserById st a fA).users b = some ub := by
    rw [updateUserById_users_other st a fA b hab']; exact hb
  refine ⟨_, hok, ?_, ?_, rfl, rfl, by simp [debitEntry, creditEntry], rfl, ?_⟩
  · rw [updateUserById_users_other (updateUserById st a fA) b fB a hab,
        updateUserById_users_same st a fA ua ha]
  · rw [updateUserById_users_same (updateUserById st a fA) b fB ub h1b]
  · intro i hia hib
    rw [updateUserById_users_other (updateUserById st a fA) b fB i hib,
        updateUserById_users_other st a fA i hia]

/-- C1 witness: a transfer of 50 between the distinct users 1 and 2 of
`c1wState`. -/
theorem c1_witness :
    (1 : Nat) ≠ 2 ∧ c1wState.users 1 = some (mkUser 100) ∧
      c1wState.users 2 = some (mkUser 5) ∧ (0 : ℚ) < 50 ∧ (50 : ℚ) ≤ (mkUser 100).balance ∧
      (∃ st', transferFunds c1wState 7 1 2 50 "rent" = .ok st' ∧
        st'.users 1 = some { mkUser 100 with balance := (mkUser 100).balance - 50,
                                             transactions := (mkUser 100).transactions ++ [debitEntry 7 2 50 "rent"] } ∧
        st'.users 2 = some { mkUser 5 with balance := (mkUser 5).balance + 50,
                                           transactions := (mkUser 5).transactions ++ [creditEntry 7 1 50 "rent"] } ∧
        (debitEntry 7 2 50 "rent").amount = -50 ∧
        (creditEntry 7 1 50 "rent").amount = 50 ∧
        (debitEntry 7 2 50 "rent").amount + (creditEntry 7 1 50 "rent").amount = 0 ∧
        (debitEntry 7 2 50 "rent").id = (creditEntry 7 1 50 "rent").id ∧
        (∀ i, i ≠ 1 → i ≠ 2 → st'.users i = c1wState.users i)) :=
  ⟨by decide, rfl, rfl, by decide, by decide,
    c1_transferFunds_conservation c1wState 7 1 2 50 "rent" (mkUser 100) (mkUser 5)
      (by decide) rfl rfl (by decide) (by decide)⟩

/-- C8: in `bulkUpdatePrices`, the `changePercent` recorded in the pushed
`priceHistory` entry equals `((newPrice - oldPrice) / oldPrice) * 100`
whenever the old price is nonzero, and the division is unguarded
(transactionService.js 330): an old price of 0 divides by zero and the
recorded ratio is undefined (non-finite, modelled `none`), while the update
itself still succeeds. -/
theorem c8_changePercent_division (st : State) (pid : Nat) (p : Product) (newP : ℚ)
    (r : String) (hp : st.products pid = some p) (hpos : 0 < newP) :
    ∃ st' res, bulkUpdatePrices st [⟨pid, newP, r⟩] = .ok (st', res) ∧
      ∃ p', st'.products pid = some p' ∧
        p'.priceHistory = p.priceHistory ++ [priceEventOf ⟨pid, newP, r⟩ p.price] ∧
        (p.price ≠ 0 →
          (priceEventOf ⟨pid, newP, r⟩ p.price).changePercent =
            some ((newP - p.price) / p.price * 100)) ∧
        (p.price = 0 → (priceEventOf ⟨pid, newP, r⟩ p.price).changePercent = none) := by
  have hnle : ¬ newP ≤ 0 := not_le.mpr hpos
  unfold bulkUpdatePrices bulkUpdatePricesLoop
  rw [if_neg hnle, hp]
  dsimp only
  refine ⟨_, _, rfl, ?_⟩
  refine ⟨_, updateProductById_same st pid _ p hp, rfl, ?_, ?_⟩
  · intro h0
    simp [priceEventOf, jsDiv, h0]
  · intro h0
    simp [priceEventOf, jsDiv, h0]

/-- C8 witness: updating product 1 (old price 10) records
`changePercent = 100`, updating product 2 (old price 0) records an
undefined ratio. -/
theorem c8_witness :
    (c8State.products 1 = some (mkProduct 10 5) ∧ (0 : ℚ) < 20 ∧
      ∃ st' res, bulkUpdatePrices c8State [⟨1, 20, "promo"⟩] = .ok (st', res) ∧
        ∃ p', st'.products 1 = some p' ∧
          p'.priceHistory = (mkProduct 10 5).priceHistory ++
            [priceEventOf ⟨1, 20, "promo"⟩ (mkProduct 10 5).price] ∧
          ((mkProduct 10 5).price ≠ 0 →
            (priceEventOf ⟨1, 20, "promo"⟩ (mkProduct 10 5).price).changePercent =
              some ((20 - (mkProduct 10 5).price) / (mkProduct 10 5).price * 100)) ∧
          ((mkProduct 10 5).price = 0 →
            (priceEventOf ⟨1, 20, "promo"⟩ (mkProduct 10 5).price).changePercent = none)) ∧
    (c8State.products 2 = some (mkProduct 0 5) ∧ (0 : ℚ) < 30 ∧
      ∃ st' res, bulkUpdatePrices c8State [⟨2, 30, "promo"⟩] = .ok (st', res) ∧
        ∃ p', st'.products 2 = some p' ∧
          p'.priceHistory = (mkProduct 0 5).priceHistory ++
            [priceEventOf ⟨2, 30, "promo"⟩ (mkProduct 0 5).price] ∧
          ((mkProduct 0 5).price ≠ 0 →
            (priceEventOf ⟨2, 30, "promo"⟩ (mkProduct 0 5).price).changePercent =
              some ((30 - (mkProduct 0 5).price) / (mkProduct 0 5).price * 100)) ∧
          ((mkProduct 0 5).price = 0 →
            (priceEventOf ⟨2, 30, "promo"⟩ (mkProduct 0 5).price).changePercent = none)) :=
  ⟨⟨rfl, by decide, c8_changePercent_division c8State 1 (mkProduct 10 5) 20 "promo" rfl (by decide)⟩,
   ⟨rfl, by decide, c8_changePercent_division c8State 2 (mkProduct 0 5) 30 "promo" rfl (by decide)⟩⟩

/-- Inside the loop of `bulkUpdatePrices`, when every referenced product
exists and some entry carries a non-positive price, the loop throws
`Invalid price` for some product. -/
lemma bulkLoop_invalid :
    ∀ (us : List PriceUpdate) (st : State) (results : List PriceChange),
      (∀ u ∈ us, (st.products u.productId).isSome = true) →
      (∃ u ∈ us, u.newPrice ≤ 0) →
      ∃ pid, bulkUpdatePricesLoop st results us = .error (.invalidPrice pid) := by
  intro us
  induction us with
  | nil => intro st results _ hex; simp at hex
  | cons u rest ih =>
    intro st results hall hex
    by_cases hu : u.newPrice ≤ 0
    · refine ⟨u.productId, ?_⟩
      unfold bulkUpdatePricesLoop
      rw [if_pos hu]
    · obtain ⟨p, hp⟩ := Option.isSome_iff_exists.mp (hall u (List.mem_cons_self u rest))
      obtain ⟨v, hv, hvle⟩ := hex
      rcases List.mem_cons.mp hv with rfl | hvrest
      · exact absurd hvle hu
      · have hall' : ∀ w ∈ rest, ((applyPriceUpdate st u p.price).products w.productId).isSome = true := by
          intro w hw
          unfold applyPriceUpdate
          rw [updateProductById_isSome]
          exact hall w (List.mem_cons_of_mem u hw)
        obtain ⟨pid, hloop⟩ := ih (applyPriceUpdate st u p.price) _ hall' ⟨v, hvrest, hvle⟩
        refine ⟨pid, ?_⟩
        unfold bulkUpdatePricesLoop
        rw [if_neg hu, hp]
        dsimp only
        exact hloop

/-- C3 counterexample: the successful run of `transferFunds` on `c3State`
performs Repository calls that do not receive the workflow's session — the
two `findById` reads (transactionService.js 129 and 135 pass no options) —
so not every nested Repository call executes inside the session. -/
theorem c3_counterexample :
    ¬ ((transferFundsTrace c3State 1 2 50).all RepoCall.sessionPassed = true) := by
  decide

lemma validateItemsTrace_all (st : State) :
    ∀ (refs : List Nat) (heap : Nat → ItemObj),
      (validateItemsTrace st refs heap).all RepoCall.sessionMatchesWrite = true := by
  intro refs
  induction refs with
  | nil => intro heap; rfl
  | cons r rest ih =>
    intro heap
    unfold validateItemsTrace
    dsimp only
    cases st.products (heap r).productId with
    | none => rfl
    | some p =>
      dsimp only
      by_cases h : p.stock < (heap r).quantity
      · simp [h, RepoCall.sessionMatchesWrite, RepoCall.sessionPassed, RepoCall.isWrite]
      · rw [if_neg h]
        rw [List.all_cons]
        rw [ih]
        rfl

/-- C3 (amended): every workflow opens exactly one session and passes it to
exactly its mutation calls — every `createOne`/`updateById` in every
workflow trace carries the session, while every `findById` read runs
without it (`sessionPassed = isWrite` for every call of all five
workflows). -/
theorem c3_session_only_on_writes :
    (∀ (st : State) (a b : Nat) (amt : ℚ),
      (transferFundsTrace st a b amt).all RepoCall.sessionMatchesWrite = true) ∧
    (∀ (st : State) (uid : Nat) (heap : Nat → ItemObj) (refs : List Nat),
      (processOrderTrace st uid heap refs).all RepoCall.sessionMatchesWrite = true) ∧
    (∀ (st : State) (oid : Nat),
      (cancelOrderTrace st oid).all RepoCall.sessionMatchesWrite = true) ∧
    (∀ (st : State) (us : List PriceUpdate),
      (bulkUpdatePricesTrace st us).all RepoCall.sessionMatchesWrite = true) ∧
    (∀ (cp : Bool) (ib : ℚ),
      (createUserWithSetupTrace cp ib).all RepoCall.sessionMatchesWrite = true) := by
  refine ⟨?_, ?_, ?_, ?_, ?_⟩
  · intro st a b amt
    unfold transferFundsTrace
    by_cases h : amt ≤ 0
    · simp [h]
    · rw [if_neg h]
      cases st.users a with
      | none => rfl
      | some fu =>
        dsimp only
        cases st.users b with
        | none => rfl
        | some tu =>
          dsimp only
          by_cases h2 : fu.balance < amt <;>
            simp [h2, RepoCall.sessionMatchesWrite, RepoCall.sessionPassed, RepoCall.isWrite]
  · intro st uid heap refs
    unfold processOrderTrace
    cases st.users uid with
    | none => rfl
    | some u =>
      dsimp only
      rw [List.all_cons]
      rw [List.all_append]
      rw [validateItemsTrace_all st refs heap]
      cases validateItems st refs heap 0 [] with
      | error e => rfl
      | ok t =>
        rcases t with ⟨h1, tot, invs⟩
        simp [RepoCall.sessionMatchesWrite, RepoCall.sessionPassed, RepoCall.isWrite,
          List.all_map, Function.comp]
  · intro st oid
    unfold cancelOrderTrace
    cases st.orders oid with
    | none => rfl
    | some o =>
      dsimp only
      by_cases h1 : o.status = "cancelled"
      · simp [h1, RepoCall.sessionMatchesWrite, RepoCall.sessionPassed, RepoCall.isWrite]
      · rw [if_neg h1]
        by_cases h2 : o.status = "shipped" ∨ o.status = "delivered"
        · simp [h1, h2, RepoCall.sessionMatchesWrite, RepoCall.sessionPassed, RepoCall.isWrite]
        · simp [h1, h2, RepoCall.sessionMatchesWrite, RepoCall.sessionPassed, RepoCall.isWrite,
            List.all_map, Function.comp]
  · intro st us
    induction us generalizing st with
    | nil => rfl
    | cons u rest ih =>
      unfold bulkUpdatePricesTrace
      by_cases h : u.newPrice ≤ 0
      · simp [h]
      · rw [if_neg h]
        cases st.products u.productId with
        | none => rfl
        | some p =>
          dsimp only
          rw [List.all_cons, List.all_cons]
          rw [ih (applyPriceUpdate st u p.price)]
          rfl
  · intro cp ib
    unfold createUserWithSetupTrace
    by_cases h : ib > 0 <;> cases cp <;>
      simp [h, RepoCall.sessionMatchesWrite, RepoCall.sessionPassed, RepoCall.isWrite]

lemma overwrite_productId_quantity (heap : Nat → ItemObj) (r : Nat) (P T : ℚ) (j : Nat) :
    ((fun k => if k = r then { heap r with price := P, total := T } else heap k) j).productId =
      (heap j).productId ∧
    ((fun k => if k = r then { heap r with price := P, total := T } else heap k) j).quantity =
      (heap j).quantity := by
  by_cases h : j = r
  · subst h; simp
  · simp [h]

lemma itemAfter_eq_of (st : State) (it₁ it₂ : ItemObj) (h1 : it₁.productId = it₂.productId)
    (h2 : it₁.quantity = it₂.quantity) : itemAfter st it₁ = itemAfter st it₂ := by
  simp [itemAfter, h1, h2]

lemma orderTotal_congr (st : State) (h₁ h₂ : Nat → ItemObj)
    (h : ∀ j, (h₂ j).productId = (h₁ j).productId ∧ (h₂ j).quantity = (h₁ j).quantity) :
    ∀ refs, orderTotal st h₂ refs = orderTotal st h₁ refs := by
  intro refs
  induction refs with
  | nil => rfl
  | cons a l ihl =>
    unfold orderTotal at ihl ⊢
    simp only [List.map_cons, List.sum_cons, (h a).1, (h a).2, ihl]

lemma invsOf_congr (h₁ h₂ : Nat → ItemObj)
    (h : ∀ j, (h₂ j).productId = (h₁ j).productId ∧ (h₂ j).quantity = (h₁ j).quantity) :
    ∀ refs, invsOf h₂ refs = invsOf h₁ refs := by
  intro refs
  induction refs with
  | nil => rfl
  | cons a l ihl =>
    unfold invsOf at ihl ⊢
    simp only [List.map_cons, (h a).1, (h a).2, ihl]

/-- The validation loop of `processOrder` succeeds when every requested item
has an existing product with enough stock; it returns the caller's item
objects with price and total overwritten, the accumulated total, and the
accumulated planned decrements. -/
lemma validateItems_ok (st : State) :
    ∀ (refs : List Nat) (heap : Nat → ItemObj) (tot : ℚ) (invs : List InvUpdate),
      (∀ r ∈ refs, stockAvailable st (heap r) = true) →
      ∃ heap', validateItems st refs heap tot invs =
          .ok (heap', tot + orderTotal st heap refs, invs ++ invsOf heap refs) ∧
        ∀ j, heap' j = if j ∈ refs then itemAfter st (heap j) else heap j := by
  intro refs
  induction refs with
  | nil =>
    intro heap tot invs _
    refine ⟨heap, ?_, fun j => by simp⟩
    unfold validateItems orderTotal invsOf
    simp
  | cons r rest ih =>
    intro heap tot invs hall
    have hr := hall r (List.mem_cons_self r rest)
    unfold stockAvailable at hr
    cases hp : st.products (heap r).productId with
    | none => rw [hp] at hr; exact absurd hr (by simp)
    | some p =>
      rw [hp] at hr
      have hle : (heap r).quantity ≤ p.stock := of_decide_eq_true hr
      unfold validateItems
      dsimp only
      rw [hp]
      dsimp only
      rw [if_neg (not_lt.mpr hle)]
      set heap₂ : Nat → ItemObj := fun k =>
        if k = r then { heap r with price := p.price, total := p.price * (heap r).quantity }
        else heap k with hheap₂
      have hpq : ∀ j, (heap₂ j).productId = (heap j).productId ∧
          (heap₂ j).quantity = (heap j).quantity :=
        fun j => overwrite_productId_quantity heap r p.price (p.price * (heap r).quantity) j
      have hall₂ : ∀ r' ∈ rest, stockAvailable st (heap₂ r') = true := by
        intro r' hr'
        have h0 := hall r' (List.mem_cons_of_mem r hr')
        unfold stockAvailable at h0 ⊢
        rw [(hpq r').1, (hpq r').2]
        exact h0
      obtain ⟨heap', heq, hpt⟩ :=
        ih heap₂ (tot + p.price * (heap r).quantity)
          (invs ++ [{ productId := (heap r).productId, quantityToReduce := (heap r).quantity }]) hall₂
      have e1 : tot + p.price * (heap r).quantity + orderTotal st heap₂ rest =
          tot + orderTotal st heap (r :: rest) := by
        rw [orderTotal_congr st heap heap₂ hpq rest]
        unfold orderTotal
        simp only [List.map_cons, List.sum_cons]
        have hpr : priceOf st (heap r).productId = p.price := by unfold priceOf; rw [hp]
        rw [hpr]
        ring
      have e2 : (invs ++ [{ productId := (heap r).productId, quantityToReduce := (heap r).quantity }]) ++
          invsOf heap₂ rest = invs ++ invsOf heap (r :: rest) := by
        rw [invsOf_congr heap heap₂ hpq rest]
        unfold invsOf
        simp only [List.map_cons]
        rw [List.append_assoc, List.singleton_append]
      refine ⟨heap', ?_, ?_⟩
      · rw [heq, e1, e2]
      · intro j
        rw [hpt j]
        by_cases hin : j ∈ rest
        · rw [if_pos hin, if_pos (List.mem_cons_of_mem r hin)]
          exact itemAfter_eq_of st (heap₂ j) (heap j) (hpq j).1 (hpq j).2
        · rw [if_neg hin]
          by_cases hjr : j = r
          · subst hjr
            rw [if_pos (List.mem_cons_self j rest)]
            rw [hheap₂]
            simp [itemAfter, priceOf, hp]
          · rw [if_neg (by simp [List.mem_cons, hjr, hin])]
            rw [hheap₂]
            simp [hjr]

/-- The validation loop of `processOrder` throws `Insufficient stock` when
every requested product exists and some requested quantity exceeds its
product's stock. -/
lemma validateItems_outOfStock (st : State) :
    ∀ (refs : List Nat) (heap : Nat → ItemObj) (tot : ℚ) (invs : List InvUpdate),
      (∀ r ∈ refs, productExists st (heap r).productId = true) →
      (∃ r ∈ refs, outOfStockAt st (heap r) = true) →
      ∃ pid, validateItems st refs heap tot invs = .error (.outOfStock pid) := by
  intro refs
  induction refs with
  | nil => intro heap tot invs _ hex; simp at hex
  | cons r rest ih =>
    intro heap tot invs hall hex
    have hr := hall r (List.mem_cons_self r rest)
    unfold productExists at hr
    obtain ⟨p, hp⟩ := Option.isSome_iff_exists.mp hr
    unfold validateItems
    dsimp only
    rw [hp]
    dsimp only
    by_cases hs : p.stock < (heap r).quantity
    · rw [if_pos hs]
      exact ⟨(heap r).productId, rfl⟩
    · rw [if_neg hs]
      set heap₂ : Nat → ItemObj := fun k =>
        if k = r then { heap r with price := p.price, total := p.price * (heap r).quantity }
        else heap k with hheap₂
      have hpq : ∀ j, (heap₂ j).productId = (heap j).productId ∧
          (heap₂ j).quantity = (heap j).quantity :=
        fun j => overwrite_productId_quantity heap r p.price (p.price * (heap r).quantity) j
      have hall₂ : ∀ r' ∈ rest, productExists st (heap₂ r').productId = true := by
        intro r' hr'
        have h0 := hall r' (List.mem_cons_of_mem r hr')
        unfold productExists at h0 ⊢
        rw [(hpq r').1]
        exact h0
      have hex₂ : ∃ r' ∈ rest, outOfStockAt st (heap₂ r') = true := by
        obtain ⟨v, hv, hvo⟩ := hex
        rcases List.mem_cons.mp hv with rfl | hvrest
        · exfalso
          unfold outOfStockAt at hvo
          rw [hp] at hvo
          exact hs (of_decide_eq_true hvo)
        · refine ⟨v, hvrest, ?_⟩
          unfold outOfStockAt at hvo ⊢
          rw [(hpq v).1, (hpq v).2]
          exact hvo
      exact ih heap₂ _ _ hall₂ hex₂

lemma applyInvUpdates_users (oid : Nat) :
    ∀ (invs : List InvUpdate) (st : State), (applyInvUpdates oid st invs).users = st.users := by
  intro invs
  induction invs with
  | nil => intro st; rfl
  | cons u rest ih =>
    intro st
    unfold applyInvUpdates
    rw [ih, updateProductById_users]

lemma applyInvUpdates_orders (oid : Nat) :
    ∀ (invs : List InvUpdate) (st : State), (applyInvUpdates oid st invs).orders = st.orders := by
  intro invs
  induction invs with
  | nil => intro st; rfl
  | cons u rest ih =>
    intro st
    unfold applyInvUpdates
    rw [ih, updateProductById_orders]

/-- Applying a list of planned decrements subtracts, from each product, the
summed quantity the list requests of it. -/
lemma applyInvUpdates_stock (oid : Nat) :
    ∀ (invs : List InvUpdate) (st : State) (pid : Nat) (p : Product),
      st.products pid = some p →
      ∃ p', (applyInvUpdates oid st invs).products pid = some p' ∧
        p'.stock = p.stock - sumQty invs pid := by
  intro invs
  induction invs with
  | nil =>
    intro st pid p hp
    exact ⟨p, hp, by simp [sumQty]⟩
  | cons u rest ih =>
    intro st pid p hp
    unfold applyInvUpdates
    by_cases h : pid = u.productId
    · subst h
      obtain ⟨p', hpp, hstock⟩ :=
        ih _ u.productId _ (updateProductById_same st u.productId _ p hp)
      refine ⟨p', hpp, ?_⟩
      rw [hstock]
      have hq : sumQty (u :: rest) u.productId = u.quantityToReduce + sumQty rest u.productId := by
        unfold sumQty
        rw [List.filter_cons]
        simp
      rw [hq]
      dsimp only
      ring
    · have hkeep : (updateProductById st u.productId (fun pr =>
          { pr with stock := pr.stock - u.quantityToReduce,
                    stockHistory := pr.stockHistory ++
                      [{ orderId := oid, change := -u.quantityToReduce,
                         reason := "order_placed" }] })).products pid = some p := by
        rw [updateProductById_other st u.productId _ pid h]
        exact hp
      obtain ⟨p', hpp, hstock⟩ := ih _ pid p hkeep
      refine ⟨p', hpp, ?_⟩
      rw [hstock]
      have hq : sumQty (u :: rest) pid = sumQty rest pid := by
        unfold sumQty
        rw [List.filter_cons]
        simp [Ne.symm h]
      rw [hq]

/-- C2: `processOrder` is all-or-nothing.  When the buyer exists, every
requested product exists, and some requested quantity exceeds its product's
stock, the workflow fails with `OutOfStock` and the committed state is the
pre-state (no stock decrement, no order document, no stockHistory entry);
otherwise (buyer exists, all quantities available) it succeeds, creating an
order with status `pending` whose total is the sum of
`price * quantity` over the items, and applying every requested stock
decrement. -/
theorem c2_processOrder_all_or_nothing :
    (∀ (st : State) (oid uid : Nat) (heap : Nat → ItemObj) (refs : List Nat),
      (st.users uid).isSome = true →
      (∀ r ∈ refs, productExists st (heap r).productId = true) →
      (∃ r ∈ refs, outOfStockAt st (heap r) = true) →
      (∃ pid, processOrder st oid uid heap refs = .error (.outOfStock pid)) ∧
        commitP st (processOrder st oid uid heap refs) = st) ∧
    (∀ (st : State) (oid uid : Nat) (heap : Nat → ItemObj) (refs : List Nat),
      (st.users uid).isSome = true →
      (∀ r ∈ refs, stockAvailable st (heap r) = true) →
      ∃ st' heap' res, processOrder st oid uid heap refs = .ok (st', heap', res) ∧
        st'.orders oid = some { userId := uid, items := refs.map heap',
                                total := orderTotal st heap refs, status := "pending",
                                cancellationReason := none } ∧
        (∀ pid p, st.products pid = some p →
          ∃ p', st'.products pid = some p' ∧
            p'.stock = p.stock - requestedQty heap refs pid)) := by
  constructor
  · intro st oid uid heap refs hu hall hex
    obtain ⟨u, hu'⟩ := Option.isSome_iff_exists.mp hu
    obtain ⟨pid, hv⟩ := validateItems_outOfStock st refs heap 0 [] hall hex
    have herr : processOrder st oid uid heap refs = .error (.outOfStock pid) := by
      unfold processOrder
      rw [hu']
      dsimp only
      rw [hv]
    exact ⟨⟨pid, herr⟩, by rw [herr]; rfl⟩
  · intro st oid uid heap refs hu hall
    obtain ⟨u, hu'⟩ := Option.isSome_iff_exists.mp hu
    obtain ⟨heap', hok, hpt⟩ := validateItems_ok st refs heap 0 [] hall
    unfold processOrder
    rw [hu']
    dsimp only
    rw [hok]
    dsimp only
    rw [zero_add, List.nil_append]
    refine ⟨_, heap', _, rfl, ?_, ?_⟩
    · rw [updateUserById_orders, applyInvUpdates_orders]
      simp
    · intro pid p hp
      rw [updateUserById_products]
      exact applyInvUpdates_stock oid (invsOf heap refs) _ pid p hp

/-- C2 witness: on `c2State` (user 3, product 4 with stock 5), requesting
quantity 6 fails with `OutOfStock` and commits nothing; requesting
quantity 2 succeeds with total 20 and stock 3. -/
theorem c2_witness :
    ((c2State.users 3).isSome = true ∧
      (∀ r ∈ ([0] : List Nat), productExists c2State ((fun _ => c2Item 6) r).productId = true) ∧
      (∃ r ∈ ([0] : List Nat), outOfStockAt c2State ((fun _ => c2Item 6) r) = true) ∧
      ((∃ pid, processOrder c2State 77 3 (fun _ => c2Item 6) [0] = .error (.outOfStock pid)) ∧
        commitP c2State (processOrder c2State 77 3 (fun _ => c2Item 6) [0]) = c2State)) ∧
    ((∀ r ∈ ([0] : List Nat), stockAvailable c2State ((fun _ => c2Item 2) r) = true) ∧
      ∃ st' heap' res, processOrder c2State 77 3 (fun _ => c2Item 2) [0] = .ok (st', heap', res) ∧
        st'.orders 77 = some { userId := 3, items := ([0] : List Nat).map heap',
                               total := orderTotal c2State (fun _ => c2Item 2) [0],
                               status := "pending", cancellationReason := none } ∧
        (∀ pid p, c2State.products pid = some p →
          ∃ p', st'.products pid = some p' ∧
            p'.stock = p.stock - requestedQty (fun _ => c2Item 2) [0] pid)) :=
  ⟨⟨by decide, by decide, by decide,
     c2_processOrder_all_or_nothing.1 c2State 77 3 (fun _ => c2Item 6) [0]
       (by decide) (by decide) (by decide)⟩,
   ⟨by decide,
     c2_processOrder_all_or_nothing.2 c2State 77 3 (fun _ => c2Item 2) [0]
       (by decide) (by decide)⟩⟩

/-- C10: on a successful `processOrder`, the caller's item objects are
mutated in place — for every reference in the caller's array, `item.price`
is overwritten with the product's stored price and `item.total` is set to
`price * quantity` (transactionService.js 56-57) — and the created order
embeds exactly those mutated objects (the same references, serialized at
insert). -/
theorem c10_processOrder_mutates_caller_items (st : State) (oid uid : Nat)
    (heap : Nat → ItemObj) (refs : List Nat) (hu : (st.users uid).isSome = true)
    (hall : ∀ r ∈ refs, stockAvailable st (heap r) = true) :
    ∃ st' heap' res, processOrder st oid uid heap refs = .ok (st', heap', res) ∧
      (∀ r ∈ refs, heap' r =
        { heap r with price := priceOf st (heap r).productId,
                      total := priceOf st (heap r).productId * (heap r).quantity }) ∧
      res.itemRefs = refs ∧
      (∃ o, st'.orders oid = some o ∧ o.items = refs.map heap') := by
  obtain ⟨u, hu'⟩ := Option.isSome_iff_exists.mp hu
  obtain ⟨heap', hok, hpt⟩ := validateItems_ok st refs heap 0 [] hall
  unfold processOrder
  rw [hu']
  dsimp only
  rw [hok]
  dsimp only
  rw [zero_add, List.nil_append]
  refine ⟨_, heap', _, rfl, ?_, rfl, ?_⟩
  · intro r hr
    rw [hpt r, if_pos hr]
    rfl
  · refine ⟨{ userId := uid, items := refs.map heap', total := orderTotal st heap refs,
              status := "pending", cancellationReason := none }, ?_, rfl⟩
    rw [updateUserById_orders, applyInvUpdates_orders]
    simp

/-- C10 witness: ordering quantity 2 of product 4 on `c10State` overwrites
the caller's item (stale price 999) with price 10 and total 20, and the
created order embeds that mutated item. -/
theorem c10_witness :
    (c10State.users 3).isSome = true ∧
      (∀ r ∈ ([0] : List Nat),
        stockAvailable c10State
          ((fun _ => ({ productId := 4, quantity := 2, price := 999, total := 0 } : ItemObj)) r) =
          true) ∧
      (∃ st' heap' res, processOrder c10State 88 3
          (fun _ => ({ productId := 4, quantity := 2, price := 999, total := 0 } : ItemObj))
          [0] = .ok (st', heap', res) ∧
        (∀ r ∈ ([0] : List Nat), heap' r =
          ({ productId := 4, quantity := 2, price := priceOf c10State 4,
             total := priceOf c10State 4 * 2 } : ItemObj)) ∧
        res.itemRefs = [0] ∧
        (∃ o, st'.orders 88 = some o ∧ o.items = ([0] : List Nat).map heap')) :=
  ⟨by decide, by decide,
    c10_processOrder_mutates_caller_items c10State 88 3
      (fun _ => ({ productId := 4, quantity := 2, price := 999, total := 0 } : ItemObj))
      [0] (by decide) (by decide)⟩

/-- C4 counterexample: cancelling the pending order 9 of `c4State` removes
its identifier from the buyer's `orderHistory` — the committed history is
`[]`, so the cancelled order's identifier is no longer present, because
`cancelOrder` issues `$pull: orderHistory` (transactionService.js 266). -/
theorem c4_counterexample :
    (c4State.orders 9).map Order.status = some "pending" ∧
      (c4State.users 5).map User.orderHistory = some [9] ∧
      ((commit c4State (cancelOrder c4State 9 "changed mind")).users 5).map User.orderHistory =
        some [] ∧
      9 ∉ ([] : List Nat) :=
  ⟨rfl, rfl, rfl, by decide⟩

/-- C4 (amended): `orderHistory` is not append-only — a committed
`cancelOrder` removes every occurrence of the cancelled order's identifier
from the buyer's `orderHistory` (`$pull`, transactionService.js 266) while
incrementing `cancelledOrders`; only `processOrder` appends to it. -/
theorem c4_cancelOrder_removes_from_history (st : State) (oid : Nat) (r : String)
    (o : Order) (u : User) (ho : st.orders oid = some o) (h1 : o.status ≠ "cancelled")
    (h2 : ¬(o.status = "shipped" ∨ o.status = "delivered"))
    (hu : st.users o.userId = some u) :
    ∃ st', cancelOrder st oid r = .ok st' ∧
      ∃ u', st'.users o.userId = some u' ∧
        u'.orderHistory = u.orderHistory.filter (fun x => x != oid) ∧
        u'.cancelledOrders = u.cancelledOrders + 1 := by
  unfold cancelOrder
  rw [ho]
  dsimp only
  rw [if_neg h1, if_neg h2]
  refine ⟨_, rfl, ?_⟩
  have hu2 : (updateOrderById (restoreItems oid st o.items) oid fun x =>
      { x with status := "cancelled", cancellationReason := some r }).users o.userId = some u := by
    rw [updateOrderById_users, restoreItems_users]; exact hu
  exact ⟨_, updateUserById_users_same _ o.userId _ u hu2, rfl, rfl⟩

/-- C4 witness: cancelling order 9 of `c4State` empties the buyer's
history `[9]`. -/
theorem c4_witness :
    c4State.orders 9 = some ⟨5, [], 20, "pending", none⟩ ∧
      ("pending" : String) ≠ "cancelled" ∧
      ¬(("pending" : String) = "shipped" ∨ ("pending" : String) = "delivered") ∧
      c4State.users 5 = some ⟨0, [9], [], 1, 20, 0⟩ ∧
      (∃ st', cancelOrder c4State 9 "changed mind" = .ok st' ∧
        ∃ u', st'.users (Order.userId ⟨5, [], 20, "pending", none⟩) = some u' ∧
          u'.orderHistory = (User.orderHistory ⟨0, [9], [], 1, 20, 0⟩).filter (fun x => x != 9) ∧
          u'.cancelledOrders = User.cancelledOrders ⟨0, [9], [], 1, 20, 0⟩ + 1) :=
  ⟨rfl, by decide, by decide, rfl,
    c4_cancelOrder_removes_from_history c4State 9 "changed mind" ⟨5, [], 20, "pending", none⟩
      ⟨0, [9], [], 1, 20, 0⟩ rfl (by decide) (by decide) rfl⟩

/-- C5: when any entry of `bulkUpdatePrices` has `newPrice ≤ 0` (and every
referenced product exists, so no earlier lookup throws first), the whole
batch fails with `InvalidPrice` (transactionService.js 308-310) and the
committed state is the pre-state: every product's price and priceHistory is
unchanged, including the products named by entries preceding the invalid
one — their in-session writes are aborted with the session. -/
theorem c5_bulkUpdatePrices_whole_batch (st : State) (us : List PriceUpdate)
    (hall : ∀ u ∈ us, productExists st u.productId = true)
    (hex : ∃ u ∈ us, u.newPrice ≤ 0) :
    (∃ pid, bulkUpdatePrices st us = .error (.invalidPrice pid)) ∧
      commitP st (bulkUpdatePrices st us) = st := by
  obtain ⟨pid, h⟩ := bulkLoop_invalid us st [] (fun u hu => hall u hu) hex
  have h' : bulkUpdatePrices st us = .error (.invalidPrice pid) := h
  exact ⟨⟨pid, h'⟩, by rw [h']; rfl⟩

/-- C5 witness: a batch of two entries on existing products whose second
entry has a negative price is rejected whole and commits nothing. -/
theorem c5_witness :
    (∀ u ∈ [(⟨1, 20, "up"⟩ : PriceUpdate), ⟨2, -5, "down"⟩], productExists c5State u.productId = true) ∧
    (∃ u ∈ [(⟨1, 20, "up"⟩ : PriceUpdate), ⟨2, -5, "down"⟩], u.newPrice ≤ 0) ∧
    ((∃ pid, bulkUpdatePrices c5State [⟨1, 20, "up"⟩, ⟨2, -5, "down"⟩] = .error (.invalidPrice pid)) ∧
      commitP c5State (bulkUpdatePrices c5State [⟨1, 20, "up"⟩, ⟨2, -5, "down"⟩]) = c5State) :=
  ⟨by decide, by decide,
    c5_bulkUpdatePrices_whole_batch c5State [⟨1, 20, "up"⟩, ⟨2, -5, "down"⟩] (by decide) (by decide)⟩

end MongoTx

namespace MongoCrud

/-- C9: every by-id Repository operation (`findById`, `updateById`,
`deleteById`) converts the identifier with `toObjectId` first
(crudOperations.js 161, 232, 375); a malformed identifier is rejected with
the `Invalid ObjectId` error for every possible collection state, so the
collection is never read, modified, or deleted. -/
theorem c9_byId_rejects_invalid (id : String) (h : isValidObjectId id = false) :
    (∀ (δ : Type) (c : Col δ), findById c id = .error .invalidObjectId) ∧
      (∀ (δ : Type) (c : Col δ) (f : δ → δ), updateById c id f = .error .invalidObjectId) ∧
      (∀ (δ : Type) (c : Col δ), deleteById c id = .error .invalidObjectId) := by
  have ht : toObjectId id = .error .invalidObjectId := by
    unfold toObjectId; rw [h]; rfl
  refine ⟨fun δ c => ?_, fun δ c f => ?_, fun δ c => ?_⟩ <;>
    simp [findById, updateById, deleteById, ht]

/-- C9 witness: the malformed identifier "zz" is rejected by all three
by-id operations on a concrete collection. -/
theorem c9_witness :
    isValidObjectId "zz" = false ∧
      findById emptyCol "zz" = .error .invalidObjectId ∧
      updateById emptyCol "zz" (fun d => d + 1) = .error .invalidObjectId ∧
      deleteById emptyCol "zz" = .error .invalidObjectId := by
  have h : isValidObjectId "zz" = false := by decide
  exact ⟨h, (c9_byId_rejects_invalid "zz" h).1 Nat emptyCol,
    (c9_byId_rejects_invalid "zz" h).2.1 Nat emptyCol (fun d => d + 1),
    (c9_byId_rejects_invalid "zz" h).2.2 Nat emptyCol⟩

end MongoCrud
